import Mathlib

/-!
Shallow embedding of the `mywoosh2garmin` core: the FIT activity
correction pass (`fitfix.go`), the OAuth token exchanger and expiry
check (`garmin/sso.go` and the garmin token file), the upload client's
refresh/retry control flow (`Client.UploadFIT`), and the version-based
file selection (`findMostRecentFitFile` / `cmpVersionParts`).

Machine integers are modelled as `Nat` (with explicit `% 2^w` where the
source narrows or where a fixed-width accumulator may wrap); the Go
`uint64` averaging accumulator is modelled by a fold that reduces
modulo `2^64` at every step, exactly as the machine does.  I/O (decode,
encode, HTTP transport) is abstracted: the upload client is embedded as
a deterministic function of an environment giving the outcome of each
`doUpload` attempt and each `refreshOAuth2` call, and it returns the
trace of those calls together with its result.
-/

namespace M2G

/-! ### FIT protocol invalid sentinel values per base type (fitfix.go) -/

def uint8Invalid : Nat := 0xFF
def uint16Invalid : Nat := 0xFFFF
def sint8Invalid : Int := 0x7F

/-! ### Device spoofing constants (fitfix.go) -/

def garminManufacturer : Nat := 1
def fenix6sProduct : Nat := 3288
def fakeSerialNumber : Nat := 3420897194

/-! ### Data model: the fields of the decoded activity that
`fixFitFile` reads or writes.  Record fields are Go `uint16`/`uint8`
(power, heart rate, cadence) and `int8` (temperature); extra fields
(`timestamp`, `sport`) stand for the data the pass must leave alone. -/

structure RecordMsg where
  timestamp : Nat
  power : Nat
  heartRate : Nat
  cadence : Nat
  temperature : Int
deriving Repr, DecidableEq

structure SessionMsg where
  sport : Nat
  avgPower : Nat
  avgHeartRate : Nat
  avgCadence : Nat
deriving Repr, DecidableEq

structure DeviceId where
  manufacturer : Nat
  product : Nat
  serialNumber : Nat
deriving Repr, DecidableEq

structure Activity where
  fileId : DeviceId
  deviceInfos : List DeviceId
  records : List RecordMsg
  sessions : List SessionMsg
deriving Repr, DecidableEq

/-! ### Sample collection (the record loop of `fixFitFile`):
append the value to the pool only when it is not the sentinel for the
field's width. -/

def collectPowers : List RecordMsg → List Nat
  | [] => []
  | r :: rs =>
    if r.power = uint16Invalid then collectPowers rs
    else r.power :: collectPowers rs

def collectHeartRates : List RecordMsg → List Nat
  | [] => []
  | r :: rs =>
    if r.heartRate = uint8Invalid then collectHeartRates rs
    else r.heartRate :: collectHeartRates rs

def collectCadences : List RecordMsg → List Nat
  | [] => []
  | r :: rs =>
    if r.cadence = uint8Invalid then collectCadences rs
    else r.cadence :: collectCadences rs

/-! ### Averaging helpers (`avgU16`, `avgU8`):
`var sum uint64; for _, v := range vals { sum += uint64(v) };
return uintN(sum / uint64(len(vals)))`.  The accumulator is a `uint64`,
so every addition is modulo `2^64`; the final narrowing to the target
width is the `% 2^16` / `% 2^8`. -/

def goSumU64 (vals : List Nat) : Nat :=
  vals.foldl (fun s v => (s + v) % 2 ^ 64) 0

def avgU16 (vals : List Nat) : Nat :=
  goSumU64 vals / vals.length % 2 ^ 16

def avgU8 (vals : List Nat) : Nat :=
  goSumU64 vals / vals.length % 2 ^ 8

def shouldFixU16 (v : Nat) : Bool := v = uint16Invalid || v = 0
def shouldFixU8 (v : Nat) : Bool := v = uint8Invalid || v = 0

/-! Go panics on division by zero; `avgU16Checked`/`avgU8Checked` make
that partiality explicit (`none` = the division-by-zero panic). -/

def avgU16Checked (vals : List Nat) : Option Nat :=
  if vals.length = 0 then none else some (avgU16 vals)

def avgU8Checked (vals : List Nat) : Option Nat :=
  if vals.length = 0 then none else some (avgU8 vals)

/-! ### The session-fixing step of `fixFitFile`: each of the three
aggregates is replaced by the pool average only when it is sentinel or
zero AND the pool is non-empty.  `fixU16`/`fixU8` are the per-field
conditional (`if shouldFixU16(sess.AvgPower) && len(powers) > 0 { … }`). -/

def fixU16 (pool : List Nat) (v : Nat) : Nat :=
  if shouldFixU16 v && pool.length > 0 then avgU16 pool else v

def fixU8 (pool : List Nat) (v : Nat) : Nat :=
  if shouldFixU8 v && pool.length > 0 then avgU8 pool else v

def fixSession (powers heartRates cadences : List Nat) (s : SessionMsg) : SessionMsg :=
  { s with
    avgPower := fixU16 powers s.avgPower
    avgHeartRate := fixU8 heartRates s.avgHeartRate
    avgCadence := fixU8 cadences s.avgCadence }

/-- `fixSession` with the helpers' division-by-zero partiality kept
explicit: `none` would mean a reachable panic. -/
def fixSessionChecked (powers heartRates cadences : List Nat) (s : SessionMsg) :
    Option SessionMsg :=
  (if shouldFixU16 s.avgPower && powers.length > 0 then avgU16Checked powers
   else some s.avgPower).bind fun ap =>
  (if shouldFixU8 s.avgHeartRate && heartRates.length > 0 then avgU8Checked heartRates
   else some s.avgHeartRate).bind fun ah =>
  (if shouldFixU8 s.avgCadence && cadences.length > 0 then avgU8Checked cadences
   else some s.avgCadence).map fun ac =>
  { s with avgPower := ap, avgHeartRate := ah, avgCadence := ac }

/-! ### Device spoofing (`spoofDevice`) -/

def spoofDeviceId (d : DeviceId) : DeviceId :=
  { d with
    manufacturer := garminManufacturer
    product := fenix6sProduct
    serialNumber := fakeSerialNumber }

def spoofDevice (a : Activity) : Activity :=
  { a with
    fileId := spoofDeviceId a.fileId
    deviceInfos := a.deviceInfos.map spoofDeviceId }

/-! ### The correction pass of `fixFitFile` (decode/encode I/O
abstracted): collect the three pools from the records, strip every
record's temperature to the signed 8-bit sentinel, fix the session
aggregates, spoof the device. -/

def fixFitFile (a : Activity) : Activity :=
  let powers := collectPowers a.records
  let heartRates := collectHeartRates a.records
  let cadences := collectCadences a.records
  spoofDevice
    { a with
      records := a.records.map fun r => { r with temperature := sint8Invalid }
      sessions := a.sessions.map (fixSession powers heartRates cadences) }

/-! ### OAuth2 token (garmin token file) and the exchanger's expiry
stamping (`exchangeOAuth2` in garmin/sso.go).  Times are Unix seconds
(Go `int64`, modelled as `Int`; the sums involved are far from the
64-bit range for realistic clock values). -/

structure OAuth2Token where
  expiresIn : Int
  expiresAt : Int
  refreshTokenExpiresIn : Int
  refreshTokenExpiresAt : Int
deriving Repr, DecidableEq

/-- The expiry stamping of `exchangeOAuth2`:
`now := time.Now().Unix(); ExpiresAt := now + raw.ExpiresIn;
RefreshTokenExpiresAt := now + raw.RefreshTokenExpiresIn`. -/
def exchangeOAuth2Stamp (now expiresIn refreshTokenExpiresIn : Int) : OAuth2Token :=
  { expiresIn := expiresIn
    expiresAt := now + expiresIn
    refreshTokenExpiresIn := refreshTokenExpiresIn
    refreshTokenExpiresAt := now + refreshTokenExpiresIn }

/-- `func (t *OAuth2Token) Expired() bool { return t.ExpiresAt < time.Now().Unix() }`
with the current clock made an explicit argument. -/
def OAuth2Token.Expired (t : OAuth2Token) (now : Int) : Bool :=
  t.expiresAt < now

/-! ### Upload client (`Client.UploadFIT`, `parseUploadResult`).

The HTTP transport is abstracted into an environment: `attempt n` is
what the `n`-th `doUpload` call yields (`none` = transport error,
`some (status, body)` otherwise), and `refreshOk n` is whether the
`n`-th `refreshOAuth2` call succeeds.  The body is kept only as far as
`parseUploadResult` inspects it: the parsed `detailedImportResult`
failures list, or `none` when the body is not valid JSON (in which case
the Go code skips the failures check).  `uploadFIT` returns the trace
of refresh/attempt calls it made together with its outcome. -/

structure UploadBody where
  failures : Option (List String)
deriving Repr, DecidableEq

inductive UploadResult where
  | duplicate
  | httpError (status : Nat)
  | reportedFailures (fs : List String)
  | ok
deriving Repr, DecidableEq

/-- `parseUploadResult(status, body)`: 409 ⇒ duplicate; other ≥ 400 ⇒
HTTP error; otherwise report the failures list when the body parses and
the list is non-empty, else success. -/
def parseUploadResult (status : Nat) (body : UploadBody) : UploadResult :=
  if status = 409 then .duplicate
  else if 400 ≤ status then .httpError status
  else
    match body.failures with
    | some fs => if 0 < fs.length then .reportedFailures fs else .ok
    | none => .ok

structure UploadEnv where
  oauth2Present : Bool
  expired : Bool
  refreshOk : Nat → Bool
  attempt : Nat → Option (Nat × UploadBody)

inductive UploadEv where
  | refresh
  | attempt
deriving Repr, DecidableEq

inductive UploadOutcome where
  | notAuthenticated
  | refreshFailed
  | transportFailed
  | result (r : UploadResult)
deriving Repr, DecidableEq

/-- `Client.UploadFIT`: fail if unauthenticated; refresh first when the
cached token is expired; one upload attempt; on status 401 exactly one
refresh and one retry; the (second) status goes to `parseUploadResult`.
Returns the call trace and the outcome. -/
def uploadFIT (env : UploadEnv) : List UploadEv × UploadOutcome :=
  if !env.oauth2Present then ([], .notAuthenticated)
  else
    let pre : List UploadEv := if env.expired then [.refresh] else []
    if env.expired && !env.refreshOk 0 then (pre, .refreshFailed)
    else
      let rIdx : Nat := if env.expired then 1 else 0
      match env.attempt 0 with
      | none => (pre ++ [.attempt], .transportFailed)
      | some (status, body) =>
        if status = 401 then
          if !env.refreshOk rIdx then
            (pre ++ [.attempt, .refresh], .refreshFailed)
          else
            match env.attempt 1 with
            | none => (pre ++ [.attempt, .refresh, .attempt], .transportFailed)
            | some (status2, body2) =>
              (pre ++ [.attempt, .refresh, .attempt],
               .result (parseUploadResult status2 body2))
        else (pre ++ [.attempt], .result (parseUploadResult status body))

/-- A concrete transport environment: token cached and unexpired,
first attempt rejected with 401, retry succeeds with 200. -/
def env401 : UploadEnv where
  oauth2Present := true
  expired := false
  refreshOk := fun _ => true
  attempt := fun n =>
    if n = 0 then some (401, ⟨some []⟩) else some (200, ⟨some []⟩)

/-- A concrete transport environment: token cached and unexpired,
first attempt answered with 409. -/
def env409 : UploadEnv where
  oauth2Present := true
  expired := false
  refreshOk := fun _ => true
  attempt := fun _ => some (409, ⟨none⟩)

/-! ### FIT file discovery (`findMostRecentFitFile`, `cmpVersionParts`).

The Go code extracts every run of decimal digits from the base name
(`regexp \d+` + `strconv.Atoi`), compares the sequences with
`cmpVersionParts` (first differing component decides; on a common
prefix the longer sequence wins), sorts the candidates in descending
order and returns the first.  `strconv.Atoi` (64-bit `int`) saturates
a run larger than 2^63-1 at 2^63-1 and reports a range error, which
the Go code ignores — so `digitRuns` applies that saturation to each
run.  `specDigitRuns` is the spec-side reading of the same runs "as
integers", i.e. unbounded.  Sorting is embedded as insertion sort with
the same strict comparison. -/

def isDigitCh (c : Char) : Bool := '0' ≤ c && c ≤ '9'

def digitVal (c : Char) : Nat := c.toNat - '0'.toNat

/-- `strconv.Atoi` with its error discarded: the exact value of a digit
run, saturated at `math.MaxInt64` = 2^63-1 on range error. -/
def goAtoiSat (n : Nat) : Nat := min n (2 ^ 63 - 1)

/-- Extract the maximal runs of decimal digits of a character list, each
parsed through `goAtoiSat` (the `\d+` matches fed through `Atoi` with
the error ignored).  The accumulator holds the exact value of the run
currently being read; saturation applies when the run ends. -/
def digitRunsAcc : List Char → Option Nat → List Nat
  | [], none => []
  | [], some n => [goAtoiSat n]
  | c :: cs, none =>
    if isDigitCh c then digitRunsAcc cs (some (digitVal c))
    else digitRunsAcc cs none
  | c :: cs, some n =>
    if isDigitCh c then digitRunsAcc cs (some (n * 10 + digitVal c))
    else goAtoiSat n :: digitRunsAcc cs none

def digitRuns (s : String) : List Nat := digitRunsAcc s.data none

/-- Spec-side run extraction, written from the claim's words: the same
maximal digit runs read as unbounded integers (no saturation). -/
def specDigitRunsAcc : List Char → Option Nat → List Nat
  | [], none => []
  | [], some n => [n]
  | c :: cs, none =>
    if isDigitCh c then specDigitRunsAcc cs (some (digitVal c))
    else specDigitRunsAcc cs none
  | c :: cs, some n =>
    if isDigitCh c then specDigitRunsAcc cs (some (n * 10 + digitVal c))
    else n :: specDigitRunsAcc cs none

def specDigitRuns (s : String) : List Nat := specDigitRunsAcc s.data none

/-- `cmpVersionParts(a, b)`: first differing component decides (as a
signed difference); otherwise the length difference. -/
def cmpVersionParts : List Nat → List Nat → Int
  | a :: as, b :: bs =>
    if a ≠ b then (a : Int) - (b : Int) else cmpVersionParts as bs
  | as, bs => (as.length : Int) - (bs.length : Int)

/-- One insertion-sort step for the descending order used by
`sort.Slice(matches, func(i, j) { return cmpVersionParts(vi, vj) > 0 })`. -/
def insertDescByVersion (x : String) : List String → List String
  | [] => [x]
  | y :: ys =>
    if 0 < cmpVersionParts (digitRuns x) (digitRuns y) then x :: y :: ys
    else y :: insertDescByVersion x ys

def sortDescByVersion (l : List String) : List String :=
  l.foldr insertDescByVersion []

/-- `findMostRecentFitFile` on the list of matched base names: error
(`none`) when empty, otherwise sort descending by version parts and
return the first. -/
def findMostRecentFitFile (candidates : List String) : Option String :=
  match sortDescByVersion candidates with
  | [] => none
  | m :: _ => some m

/-- Spec-side comparison, written from the spec's words: the sequence
`a` is less-or-equal to `b` "component-wise left to right as integers"
(a strict prefix counts as smaller). -/
def versionLE : List Nat → List Nat → Bool
  | [], _ => true
  | _ :: _, [] => false
  | a :: as, b :: bs => a < b || (a = b && versionLE as bs)

/-! ### Spec-side definitions for the averaging claims: the pool of
non-sentinel samples of a field, and the truncating integer mean. -/

def nonSentinel (sentinel : Nat) (xs : List Nat) : List Nat :=
  xs.filter fun v => v ≠ sentinel

def specMean (xs : List Nat) : Nat := xs.sum / xs.length

/-- The synthetic activity of the repository's test (`createTestFitFile`):
ten records with power 200, heart rate 150, cadence 90, temperature 25,
one session with all three averages left at sentinel/zero. -/
def sampleActivity : Activity where
  fileId := ⟨255, 0, 7⟩
  deviceInfos := [⟨255, 0, 7⟩]
  records := (List.range 10).map fun i => ⟨i, 200, 150, 90, 25⟩
  sessions := [⟨2, uint16Invalid, 0, uint8Invalid⟩]

/-! ## Helper lemmas about the collection pass -/

theorem collectPowers_eq_filter (recs : List RecordMsg) :
    collectPowers recs = nonSentinel uint16Invalid (recs.map RecordMsg.power) := by
  induction recs with
  | nil => rfl
  | cons r rs ih =>
    by_cases h : r.power = uint16Invalid <;>
      simp [collectPowers, nonSentinel, List.filter_cons, h, ih]

theorem collectHeartRates_eq_filter (recs : List RecordMsg) :
    collectHeartRates recs = nonSentinel uint8Invalid (recs.map RecordMsg.heartRate) := by
  induction recs with
  | nil => rfl
  | cons r rs ih =>
    by_cases h : r.heartRate = uint8Invalid <;>
      simp [collectHeartRates, nonSentinel, List.filter_cons, h, ih]

theorem collectCadences_eq_filter (recs : List RecordMsg) :
    collectCadences recs = nonSentinel uint8Invalid (recs.map RecordMsg.cadence) := by
  induction recs with
  | nil => rfl
  | cons r rs ih =>
    by_cases h : r.cadence = uint8Invalid <;>
      simp [collectCadences, nonSentinel, List.filter_cons, h, ih]

theorem mem_nonSentinel {sentinel : Nat} {xs : List Nat} {v : Nat}
    (h : v ∈ nonSentinel sentinel xs) : v ∈ xs ∧ v ≠ sentinel := by
  have := List.mem_filter.mp h
  exact ⟨this.1, by simpa using this.2⟩

/-! ## Helper lemmas about the widened accumulator -/

theorem foldl_addmod (M : Nat) (l : List Nat) (s : Nat) :
    l.foldl (fun a v => (a + v) % M) (s % M) = l.foldl (· + ·) s % M := by
  induction l generalizing s with
  | nil => rfl
  | cons c t ih =>
    simp only [List.foldl_cons]
    rw [Nat.mod_add_mod, ih]

theorem foldl_add_eq_sum (l : List Nat) (s : Nat) :
    l.foldl (· + ·) s = s + l.sum := by
  induction l generalizing s with
  | nil => simp
  | cons c t ih => simp [List.foldl_cons, ih, Nat.add_assoc]

theorem goSumU64_eq (vals : List Nat) : goSumU64 vals = vals.sum % 2 ^ 64 := by
  have h := foldl_addmod (2 ^ 64) vals 0
  rw [Nat.zero_mod] at h
  rw [goSumU64, h, foldl_add_eq_sum, Nat.zero_add]

theorem sum_le_mul_length (l : List Nat) (B : Nat) (h : ∀ v ∈ l, v ≤ B) :
    l.sum ≤ B * l.length := by
  induction l with
  | nil => simp
  | cons c t ih =>
    have hc : c ≤ B := h c (List.mem_cons_self c t)
    have ht : t.sum ≤ B * t.length := ih fun v hv => h v (List.mem_cons_of_mem c hv)
    simp only [List.sum_cons, List.length_cons, Nat.mul_succ]
    omega

/-- Even if the 64-bit accumulator wraps, the quotient stays below
`B + 1` when every sample is at most `B`. -/
theorem goSum_div_len_lt (vals : List Nat) (B : Nat) (hne : vals ≠ [])
    (hb : ∀ v ∈ vals, v ≤ B) : goSumU64 vals / vals.length < B + 1 := by
  have hlen : 0 < vals.length := List.length_pos.mpr hne
  have hsum : vals.sum ≤ B * vals.length := sum_le_mul_length vals B hb
  have hBlt : B * vals.length < (B + 1) * vals.length :=
    Nat.mul_lt_mul_of_lt_of_le (Nat.lt_succ_self B) (Nat.le_refl _) hlen
  have hW : goSumU64 vals < (B + 1) * vals.length := by
    rw [goSumU64_eq]
    rcases Nat.lt_or_ge vals.sum (2 ^ 64) with h | h
    · rw [Nat.mod_eq_of_lt h]
      exact lt_of_le_of_lt hsum hBlt
    · have h1 : vals.sum % 2 ^ 64 ≤ vals.sum - 2 ^ 64 := by
        rw [Nat.mod_eq_sub_mod h]
        exact Nat.mod_le _ _
      have h2 : vals.sum - 2 ^ 64 < vals.sum :=
        Nat.sub_lt (lt_of_lt_of_le (by norm_num) h) (by norm_num)
      exact lt_of_le_of_lt h1 (lt_of_lt_of_le h2 (le_of_lt (lt_of_le_of_lt hsum hBlt)))
  exact (Nat.div_lt_iff_lt_mul hlen).mpr hW

/-- For a non-empty pool of genuine `uint16` samples (all below the
sentinel), `avgU16` computes the plain quotient: the final narrowing
`% 2^16` is the identity and the result is below the sentinel. -/
theorem avgU16_no_wrap (vals : List Nat) (hne : vals ≠ [])
    (hb : ∀ v ∈ vals, v < uint16Invalid) :
    avgU16 vals = goSumU64 vals / vals.length ∧
      goSumU64 vals / vals.length < uint16Invalid := by
  have hb' : ∀ v ∈ vals, v ≤ 65534 := by
    intro v hv
    have := hb v hv
    simp only [uint16Invalid] at this
    omega
  have h := goSum_div_len_lt vals 65534 hne hb'
  refine ⟨?_, ?_⟩
  · exact Nat.mod_eq_of_lt (by omega)
  · simp only [uint16Invalid]
    omega

theorem avgU8_no_wrap (vals : List Nat) (hne : vals ≠ [])
    (hb : ∀ v ∈ vals, v < uint8Invalid) :
    avgU8 vals = goSumU64 vals / vals.length ∧
      goSumU64 vals / vals.length < uint8Invalid := by
  have hb' : ∀ v ∈ vals, v ≤ 254 := by
    intro v hv
    have := hb v hv
    simp only [uint8Invalid] at this
    omega
  have h := goSum_div_len_lt vals 254 hne hb'
  refine ⟨?_, ?_⟩
  · exact Nat.mod_eq_of_lt (by omega)
  · simp only [uint8Invalid]
    omega

/-- When the true sum fits the 64-bit accumulator and the samples fit
their width, `avgU16` is the spec's truncating integer mean. -/
theorem avgU16_eq_specMean (vals : List Nat) (hne : vals ≠ [])
    (hb : ∀ v ∈ vals, v < uint16Invalid) (hsum : vals.sum < 2 ^ 64) :
    avgU16 vals = specMean vals := by
  have hg : goSumU64 vals = vals.sum := by
    rw [goSumU64_eq, Nat.mod_eq_of_lt hsum]
  have h := avgU16_no_wrap vals hne hb
  rw [h.1, hg, specMean]

theorem avgU8_eq_specMean (vals : List Nat) (hne : vals ≠ [])
    (hb : ∀ v ∈ vals, v < uint8Invalid) (hsum : vals.sum < 2 ^ 64) :
    avgU8 vals = specMean vals := by
  have hg : goSumU64 vals = vals.sum := by
    rw [goSumU64_eq, Nat.mod_eq_of_lt hsum]
  have h := avgU8_no_wrap vals hne hb
  rw [h.1, hg, specMean]

/-! ## Helper lemmas about the correction pass -/

theorem fixU16_idem (pool : List Nat) (v : Nat) :
    fixU16 pool (fixU16 pool v) = fixU16 pool v := by
  unfold fixU16
  by_cases h : (shouldFixU16 v && pool.length > 0 : Bool) = true
  · rw [if_pos h]
    exact ite_self _
  · rw [if_neg h, if_neg h]

theorem fixU8_idem (pool : List Nat) (v : Nat) :
    fixU8 pool (fixU8 pool v) = fixU8 pool v := by
  unfold fixU8
  by_cases h : (shouldFixU8 v && pool.length > 0 : Bool) = true
  · rw [if_pos h]
    exact ite_self _
  · rw [if_neg h, if_neg h]

theorem fixSession_idem (p h c : List Nat) (s : SessionMsg) :
    fixSession p h c (fixSession p h c s) = fixSession p h c s := by
  cases s
  simp [fixSession, fixU16_idem, fixU8_idem]

/-! Projections of the correction pass (the decode/encode boundary). -/

theorem fixFitFile_records (a : Activity) :
    (fixFitFile a).records =
      a.records.map fun r => { r with temperature := sint8Invalid } := rfl

theorem fixFitFile_sessions (a : Activity) :
    (fixFitFile a).sessions =
      a.sessions.map
        (fixSession (collectPowers a.records) (collectHeartRates a.records)
          (collectCadences a.records)) := rfl

theorem fixFitFile_fileId (a : Activity) :
    (fixFitFile a).fileId = spoofDeviceId a.fileId := rfl

theorem fixFitFile_deviceInfos (a : Activity) :
    (fixFitFile a).deviceInfos = a.deviceInfos.map spoofDeviceId := rfl

/-! The collectors only look at power/heart-rate/cadence, so stripping
temperature leaves the pools unchanged. -/

theorem collectPowers_strip (recs : List RecordMsg) (t : Int) :
    collectPowers (recs.map fun r => { r with temperature := t }) =
      collectPowers recs := by
  rw [collectPowers_eq_filter, collectPowers_eq_filter, List.map_map]
  rfl

theorem collectHeartRates_strip (recs : List RecordMsg) (t : Int) :
    collectHeartRates (recs.map fun r => { r with temperature := t }) =
      collectHeartRates recs := by
  rw [collectHeartRates_eq_filter, collectHeartRates_eq_filter, List.map_map]
  rfl

theorem collectCadences_strip (recs : List RecordMsg) (t : Int) :
    collectCadences (recs.map fun r => { r with temperature := t }) =
      collectCadences recs := by
  rw [collectCadences_eq_filter, collectCadences_eq_filter, List.map_map]
  rfl

theorem map_spoof_idem (l : List DeviceId) :
    (l.map spoofDeviceId).map spoofDeviceId = l.map spoofDeviceId := by
  induction l with
  | nil => rfl
  | cons d t ih => simp only [List.map_cons, ih, spoofDeviceId]

theorem map_strip_idem (l : List RecordMsg) :
    ((l.map fun r => { r with temperature := sint8Invalid }).map
        fun r => { r with temperature := sint8Invalid }) =
      l.map fun r => { r with temperature := sint8Invalid } := by
  induction l with
  | nil => rfl
  | cons r t ih =>
    simp only [List.map_cons, ih]

theorem map_fixSession_idem (p h c : List Nat) (l : List SessionMsg) :
    (l.map (fixSession p h c)).map (fixSession p h c) =
      l.map (fixSession p h c) := by
  induction l with
  | nil => rfl
  | cons s t ih => simp only [List.map_cons, ih, fixSession_idem]

/-! Per-field frame lemmas: an already-valid aggregate, or an empty
pool, leaves the field untouched. -/

theorem fixU16_keep (pool : List Nat) (v : Nat)
    (h1 : v ≠ uint16Invalid) (h2 : v ≠ 0) : fixU16 pool v = v := by
  simp [fixU16, shouldFixU16, h1, h2]

theorem fixU8_keep (pool : List Nat) (v : Nat)
    (h1 : v ≠ uint8Invalid) (h2 : v ≠ 0) : fixU8 pool v = v := by
  simp [fixU8, shouldFixU8, h1, h2]

theorem fixU16_empty (v : Nat) : fixU16 [] v = v := by
  simp [fixU16]

theorem fixU8_empty (v : Nat) : fixU8 [] v = v := by
  simp [fixU8]

theorem fixFitFile_session_get (a : Activity) (i : Nat)
    (hi : i < a.sessions.length) (hi2 : i < (fixFitFile a).sessions.length) :
    (fixFitFile a).sessions.get ⟨i, hi2⟩ =
      fixSession (collectPowers a.records) (collectHeartRates a.records)
        (collectCadences a.records) (a.sessions.get ⟨i, hi⟩) := by
  simp only [List.get_eq_getElem, fixFitFile_sessions, List.getElem_map]

/-! ## The claims -/

/-- C3: the correction pass is idempotent: applying `fixFitFile` twice
yields the same records (in particular every temperature stays at the
8-bit signed sentinel), the same session aggregates, and the same
device identities as applying it once. -/
theorem C3_correction_idempotent (a : Activity) :
    fixFitFile (fixFitFile a) = fixFitFile a := by
  obtain ⟨fid, dis, recs, sess⟩ := a
  simp only [fixFitFile, spoofDevice, Activity.mk.injEq]
  refine ⟨rfl, map_spoof_idem dis, map_strip_idem recs, ?_⟩
  rw [collectPowers_strip, collectHeartRates_strip, collectCadences_strip,
    map_fixSession_idem]

/-- C5: after correction, the file-level identity and every
device-identity entry hold exactly the fixed spoof triple
(Garmin manufacturer 1, Fenix 6S product 3288, serial 3420897194). -/
theorem C5_spoof_identity (a : Activity) :
    (fixFitFile a).fileId =
      ⟨garminManufacturer, fenix6sProduct, fakeSerialNumber⟩ ∧
    ∀ d ∈ (fixFitFile a).deviceInfos,
      d = ⟨garminManufacturer, fenix6sProduct, fakeSerialNumber⟩ := by
  constructor
  · rw [fixFitFile_fileId]
    rfl
  · intro d hd
    rw [fixFitFile_deviceInfos] at hd
    obtain ⟨d₀, _, rfl⟩ := List.mem_map.mp hd
    rfl

/-- Witness for C5 at the sample activity: its single device entry is
the spoof triple after correction. -/
theorem C5_spoof_identity_witness :
    (fixFitFile sampleActivity).fileId =
      ⟨garminManufacturer, fenix6sProduct, fakeSerialNumber⟩ ∧
    ((fixFitFile sampleActivity).deviceInfos.getD 0 ⟨0, 0, 0⟩) =
      ⟨garminManufacturer, fenix6sProduct, fakeSerialNumber⟩ :=
  ⟨(C5_spoof_identity sampleActivity).1,
    (C5_spoof_identity sampleActivity).2 _ (by decide)⟩

/-- C4: a session aggregate that is neither the sentinel nor zero is
left unchanged by the correction pass whatever the sample pools
contain, and an aggregate whose matching pool is empty is left
untouched whatever its value. -/
theorem C4_frame_valid_aggregates (a : Activity) (i : Nat)
    (hi : i < a.sessions.length) (hi2 : i < (fixFitFile a).sessions.length) :
    ((a.sessions.get ⟨i, hi⟩).avgPower ≠ uint16Invalid →
      (a.sessions.get ⟨i, hi⟩).avgPower ≠ 0 →
      ((fixFitFile a).sessions.get ⟨i, hi2⟩).avgPower =
        (a.sessions.get ⟨i, hi⟩).avgPower) ∧
    (collectPowers a.records = [] →
      ((fixFitFile a).sessions.get ⟨i, hi2⟩).avgPower =
        (a.sessions.get ⟨i, hi⟩).avgPower) ∧
    ((a.sessions.get ⟨i, hi⟩).avgHeartRate ≠ uint8Invalid →
      (a.sessions.get ⟨i, hi⟩).avgHeartRate ≠ 0 →
      ((fixFitFile a).sessions.get ⟨i, hi2⟩).avgHeartRate =
        (a.sessions.get ⟨i, hi⟩).avgHeartRate) ∧
    (collectHeartRates a.records = [] →
      ((fixFitFile a).sessions.get ⟨i, hi2⟩).avgHeartRate =
        (a.sessions.get ⟨i, hi⟩).avgHeartRate) ∧
    ((a.sessions.get ⟨i, hi⟩).avgCadence ≠ uint8Invalid →
      (a.sessions.get ⟨i, hi⟩).avgCadence ≠ 0 →
      ((fixFitFile a).sessions.get ⟨i, hi2⟩).avgCadence =
        (a.sessions.get ⟨i, hi⟩).avgCadence) ∧
    (collectCadences a.records = [] →
      ((fixFitFile a).sessions.get ⟨i, hi2⟩).avgCadence =
        (a.sessions.get ⟨i, hi⟩).avgCadence) := by
  rw [fixFitFile_session_get a i hi hi2]
  refine ⟨?_, ?_, ?_, ?_, ?_, ?_⟩
  · intro h1 h2
    exact fixU16_keep _ _ h1 h2
  · intro hp
    rw [fixSession]
    simp only [hp]
    exact fixU16_empty _
  · intro h1 h2
    exact fixU8_keep _ _ h1 h2
  · intro hp
    rw [fixSession]
    simp only [hp]
    exact fixU8_empty _
  · intro h1 h2
    exact fixU8_keep _ _ h1 h2
  · intro hp
    rw [fixSession]
    simp only [hp]
    exact fixU8_empty _

/-- Witness for C4: an activity whose session already has valid
averages (power 123, heart rate 99, cadence 80) keeps them. -/
theorem C4_frame_valid_aggregates_witness :
    (((fixFitFile
        { fileId := ⟨0, 0, 0⟩, deviceInfos := [],
          records := [⟨0, 200, 150, 90, 25⟩],
          sessions := [⟨2, 123, 99, 80⟩] }).sessions.get
        ⟨0, by decide⟩).avgPower = 123) := by
  have h := C4_frame_valid_aggregates
    { fileId := ⟨0, 0, 0⟩, deviceInfos := [],
      records := [⟨0, 200, 150, 90, 25⟩],
      sessions := [⟨2, 123, 99, 80⟩] } 0 (by decide) (by decide)
  exact h.1 (by decide) (by decide)

/-- C2: a session aggregate that is sentinel or zero, whose pool of
non-sentinel samples is non-empty, is replaced by the truncating
integer mean of exactly the non-sentinel samples of that field across
all records (the pool never contains a sentinel); the well-formedness
hypotheses say the record fields fit their Go widths and the pool sums
fit the widened 64-bit accumulator. -/
theorem C2_average_of_nonsentinel_samples (a : Activity) (i : Nat)
    (hi : i < a.sessions.length) (hi2 : i < (fixFitFile a).sessions.length)
    (hwf : ∀ r ∈ a.records,
      r.power < 2 ^ 16 ∧ r.heartRate < 2 ^ 8 ∧ r.cadence < 2 ^ 8) :
    collectPowers a.records =
      nonSentinel uint16Invalid (a.records.map RecordMsg.power) ∧
    collectHeartRates a.records =
      nonSentinel uint8Invalid (a.records.map RecordMsg.heartRate) ∧
    collectCadences a.records =
      nonSentinel uint8Invalid (a.records.map RecordMsg.cadence) ∧
    (shouldFixU16 ((a.sessions.get ⟨i, hi⟩).avgPower) = true →
      nonSentinel uint16Invalid (a.records.map RecordMsg.power) ≠ [] →
      (nonSentinel uint16Invalid (a.records.map RecordMsg.power)).sum < 2 ^ 64 →
      ((fixFitFile a).sessions.get ⟨i, hi2⟩).avgPower =
        specMean (nonSentinel uint16Invalid (a.records.map RecordMsg.power))) ∧
    (shouldFixU8 ((a.sessions.get ⟨i, hi⟩).avgHeartRate) = true →
      nonSentinel uint8Invalid (a.records.map RecordMsg.heartRate) ≠ [] →
      (nonSentinel uint8Invalid (a.records.map RecordMsg.heartRate)).sum < 2 ^ 64 →
      ((fixFitFile a).sessions.get ⟨i, hi2⟩).avgHeartRate =
        specMean (nonSentinel uint8Invalid (a.records.map RecordMsg.heartRate))) ∧
    (shouldFixU8 ((a.sessions.get ⟨i, hi⟩).avgCadence) = true →
      nonSentinel uint8Invalid (a.records.map RecordMsg.cadence) ≠ [] →
      (nonSentinel uint8Invalid (a.records.map RecordMsg.cadence)).sum < 2 ^ 64 →
      ((fixFitFile a).sessions.get ⟨i, hi2⟩).avgCadence =
        specMean (nonSentinel uint8Invalid (a.records.map RecordMsg.cadence))) := by
  have hpc := collectPowers_eq_filter a.records
  have hhc := collectHeartRates_eq_filter a.records
  have hcc := collectCadences_eq_filter a.records
  rw [fixFitFile_session_get a i hi hi2]
  refine ⟨hpc, hhc, hcc, ?_, ?_, ?_⟩
  · intro hfix hne hsum
    have hne' : collectPowers a.records ≠ [] := by
      rw [hpc]; exact hne
    have hcond :
        (shouldFixU16 ((a.sessions.get ⟨i, hi⟩).avgPower) &&
          (collectPowers a.records).length > 0 : Bool) = true := by
      rw [hfix]
      simp [List.length_pos.mpr hne']
    have hb : ∀ v ∈ collectPowers a.records, v < uint16Invalid := by
      intro v hv
      rw [hpc] at hv
      obtain ⟨hvmem, hvne⟩ := mem_nonSentinel hv
      obtain ⟨r, hr, rfl⟩ := List.mem_map.mp hvmem
      have := (hwf r hr).1
      simp only [uint16Invalid] at hvne ⊢
      omega
    show fixU16 (collectPowers a.records)
        ((a.sessions.get ⟨i, hi⟩).avgPower) = _
    rw [fixU16, if_pos hcond, hpc]
    rw [hpc] at hb
    exact avgU16_eq_specMean _ hne hb hsum
  · intro hfix hne hsum
    have hne' : collectHeartRates a.records ≠ [] := by
      rw [hhc]; exact hne
    have hcond :
        (shouldFixU8 ((a.sessions.get ⟨i, hi⟩).avgHeartRate) &&
          (collectHeartRates a.records).length > 0 : Bool) = true := by
      rw [hfix]
      simp [List.length_pos.mpr hne']
    have hb : ∀ v ∈ collectHeartRates a.records, v < uint8Invalid := by
      intro v hv
      rw [hhc] at hv
      obtain ⟨hvmem, hvne⟩ := mem_nonSentinel hv
      obtain ⟨r, hr, rfl⟩ := List.mem_map.mp hvmem
      have := (hwf r hr).2.1
      simp only [uint8Invalid] at hvne ⊢
      omega
    show fixU8 (collectHeartRates a.records)
        ((a.sessions.get ⟨i, hi⟩).avgHeartRate) = _
    rw [fixU8, if_pos hcond, hhc]
    rw [hhc] at hb
    exact avgU8_eq_specMean _ hne hb hsum
  · intro hfix hne hsum
    have hne' : collectCadences a.records ≠ [] := by
      rw [hcc]; exact hne
    have hcond :
        (shouldFixU8 ((a.sessions.get ⟨i, hi⟩).avgCadence) &&
          (collectCadences a.records).length > 0 : Bool) = true := by
      rw [hfix]
      simp [List.length_pos.mpr hne']
    have hb : ∀ v ∈ collectCadences a.records, v < uint8Invalid := by
      intro v hv
      rw [hcc] at hv
      obtain ⟨hvmem, hvne⟩ := mem_nonSentinel hv
      obtain ⟨r, hr, rfl⟩ := List.mem_map.mp hvmem
      have := (hwf r hr).2.2
      simp only [uint8Invalid] at hvne ⊢
      omega
    show fixU8 (collectCadences a.records)
        ((a.sessions.get ⟨i, hi⟩).avgCadence) = _
    rw [fixU8, if_pos hcond, hcc]
    rw [hcc] at hb
    exact avgU8_eq_specMean _ hne hb hsum

/-- Witness for C2: an activity mixing sentinel and real samples —
records (200,150,90), (0xFFFF,0xFF,0xFF), (100,130,80) and a session
with aggregates (sentinel, 0, sentinel) — gets the means of the
non-sentinel pools. -/
theorem C2_average_of_nonsentinel_samples_witness :
    (((fixFitFile
        { fileId := ⟨0, 0, 0⟩, deviceInfos := [],
          records := [⟨0, 200, 150, 90, 25⟩, ⟨1, 65535, 255, 255, 25⟩,
            ⟨2, 100, 130, 80, 25⟩],
          sessions := [⟨2, uint16Invalid, 0, uint8Invalid⟩] }).sessions.get
        ⟨0, by decide⟩).avgPower =
      specMean (nonSentinel uint16Invalid
        (([⟨0, 200, 150, 90, 25⟩, ⟨1, 65535, 255, 255, 25⟩,
            ⟨2, 100, 130, 80, 25⟩] : List RecordMsg).map RecordMsg.power))) ∧
    (((fixFitFile
        { fileId := ⟨0, 0, 0⟩, deviceInfos := [],
          records := [⟨0, 200, 150, 90, 25⟩, ⟨1, 65535, 255, 255, 25⟩,
            ⟨2, 100, 130, 80, 25⟩],
          sessions := [⟨2, uint16Invalid, 0, uint8Invalid⟩] }).sessions.get
        ⟨0, by decide⟩).avgHeartRate =
      specMean (nonSentinel uint8Invalid
        (([⟨0, 200, 150, 90, 25⟩, ⟨1, 65535, 255, 255, 25⟩,
            ⟨2, 100, 130, 80, 25⟩] : List RecordMsg).map RecordMsg.heartRate))) := by
  have h := C2_average_of_nonsentinel_samples
    { fileId := ⟨0, 0, 0⟩, deviceInfos := [],
      records := [⟨0, 200, 150, 90, 25⟩, ⟨1, 65535, 255, 255, 25⟩,
        ⟨2, 100, 130, 80, 25⟩],
      sessions := [⟨2, uint16Invalid, 0, uint8Invalid⟩] }
    0 (by decide) (by decide) (by decide)
  exact ⟨h.2.2.2.1 (by decide) (by decide) (by decide),
    h.2.2.2.2.1 (by decide) (by decide) (by decide)⟩

/-- `avgU16Checked` is defined (`some`) exactly on non-empty pools. -/
theorem avgU16Checked_pos (vals : List Nat) (h : vals ≠ []) :
    avgU16Checked vals = some (avgU16 vals) := by
  rw [avgU16Checked, if_neg]
  exact Nat.pos_iff_ne_zero.mp (List.length_pos.mpr h)

theorem avgU8Checked_pos (vals : List Nat) (h : vals ≠ []) :
    avgU8Checked vals = some (avgU8 vals) := by
  rw [avgU8Checked, if_neg]
  exact Nat.pos_iff_ne_zero.mp (List.length_pos.mpr h)

theorem fixU16Checked_eq (pool : List Nat) (v : Nat) :
    (if shouldFixU16 v && pool.length > 0 then avgU16Checked pool
     else some v) = some (fixU16 pool v) := by
  by_cases hc : (shouldFixU16 v && pool.length > 0 : Bool) = true
  · rw [if_pos hc, fixU16, if_pos hc]
    apply avgU16Checked_pos
    have h2 := ((Bool.and_eq_true _ _).mp hc).2
    intro hnil
    rw [hnil] at h2
    simp at h2
  · rw [if_neg hc, fixU16, if_neg hc]

theorem fixU8Checked_eq (pool : List Nat) (v : Nat) :
    (if shouldFixU8 v && pool.length > 0 then avgU8Checked pool
     else some v) = some (fixU8 pool v) := by
  by_cases hc : (shouldFixU8 v && pool.length > 0 : Bool) = true
  · rw [if_pos hc, fixU8, if_pos hc]
    apply avgU8Checked_pos
    have h2 := ((Bool.and_eq_true _ _).mp hc).2
    intro hnil
    rw [hnil] at h2
    simp at h2
  · rw [if_neg hc, fixU8, if_neg hc]

/-- C9: the division-by-zero case of the averaging helpers is
unreachable during correction — the guarded session fix never hits the
`none` (panic) branch — and on every non-empty pool the helpers are
total and return the truncated, narrowed mean. -/
theorem C9_division_guard (powers heartRates cadences : List Nat) (s : SessionMsg) :
    fixSessionChecked powers heartRates cadences s =
      some (fixSession powers heartRates cadences s) ∧
    avgU16Checked [] = none ∧
    avgU8Checked [] = none ∧
    (∀ vals : List Nat, vals ≠ [] →
      avgU16Checked vals = some (goSumU64 vals / vals.length % 2 ^ 16) ∧
      avgU8Checked vals = some (goSumU64 vals / vals.length % 2 ^ 8)) := by
  refine ⟨?_, rfl, rfl, ?_⟩
  · simp only [fixSessionChecked, fixU16Checked_eq, fixU8Checked_eq,
      Option.some_bind, Option.map_some]
    rfl
  · intro vals hne
    exact ⟨avgU16Checked_pos vals hne, avgU8Checked_pos vals hne⟩

/-- Witness for C9 at singleton pools and the sample session. -/
theorem C9_division_guard_witness :
    fixSessionChecked [200] [150] [90] ⟨2, uint16Invalid, 0, uint8Invalid⟩ =
      some (fixSession [200] [150] [90] ⟨2, uint16Invalid, 0, uint8Invalid⟩) ∧
    avgU16Checked [200] =
      some (goSumU64 [200] / ([200] : List Nat).length % 2 ^ 16) := by
  have h := C9_division_guard [200] [150] [90] ⟨2, uint16Invalid, 0, uint8Invalid⟩
  exact ⟨h.1, (h.2.2.2 [200] (by decide)).1⟩

/-- C10: every collected sample is strictly below its field's sentinel,
so the truncating mean of a non-empty pool is strictly below the
sentinel and fits the target width — the narrowing in `avgU16`/`avgU8`
never wraps — and the correction therefore never writes a sentinel into
a session aggregate. -/
theorem C10_narrowing_never_wraps :
    (∀ vals : List Nat, vals ≠ [] → (∀ v ∈ vals, v < uint16Invalid) →
      avgU16 vals = goSumU64 vals / vals.length ∧ avgU16 vals < uint16Invalid) ∧
    (∀ vals : List Nat, vals ≠ [] → (∀ v ∈ vals, v < uint8Invalid) →
      avgU8 vals = goSumU64 vals / vals.length ∧ avgU8 vals < uint8Invalid) ∧
    (∀ recs : List RecordMsg, (∀ r ∈ recs, r.power < 2 ^ 16) →
      ∀ v ∈ collectPowers recs, v < uint16Invalid) ∧
    (∀ recs : List RecordMsg, (∀ r ∈ recs, r.heartRate < 2 ^ 8) →
      ∀ v ∈ collectHeartRates recs, v < uint8Invalid) ∧
    (∀ recs : List RecordMsg, (∀ r ∈ recs, r.cadence < 2 ^ 8) →
      ∀ v ∈ collectCadences recs, v < uint8Invalid) ∧
    (∀ (pool : List Nat) (v : Nat), (∀ x ∈ pool, x < uint16Invalid) →
      fixU16 pool v = v ∨ fixU16 pool v < uint16Invalid) ∧
    (∀ (pool : List Nat) (v : Nat), (∀ x ∈ pool, x < uint8Invalid) →
      fixU8 pool v = v ∨ fixU8 pool v < uint8Invalid) := by
  refine ⟨?_, ?_, ?_, ?_, ?_, ?_, ?_⟩
  · intro vals hne hb
    have h := avgU16_no_wrap vals hne hb
    exact ⟨h.1, h.1 ▸ h.2⟩
  · intro vals hne hb
    have h := avgU8_no_wrap vals hne hb
    exact ⟨h.1, h.1 ▸ h.2⟩
  · intro recs hr v hv
    rw [collectPowers_eq_filter] at hv
    obtain ⟨hvmem, hvne⟩ := mem_nonSentinel hv
    obtain ⟨r, hmem, rfl⟩ := List.mem_map.mp hvmem
    have := hr r hmem
    simp only [uint16Invalid] at hvne ⊢
    omega
  · intro recs hr v hv
    rw [collectHeartRates_eq_filter] at hv
    obtain ⟨hvmem, hvne⟩ := mem_nonSentinel hv
    obtain ⟨r, hmem, rfl⟩ := List.mem_map.mp hvmem
    have := hr r hmem
    simp only [uint8Invalid] at hvne ⊢
    omega
  · intro recs hr v hv
    rw [collectCadences_eq_filter] at hv
    obtain ⟨hvmem, hvne⟩ := mem_nonSentinel hv
    obtain ⟨r, hmem, rfl⟩ := List.mem_map.mp hvmem
    have := hr r hmem
    simp only [uint8Invalid] at hvne ⊢
    omega
  · intro pool v hx
    by_cases hc : (shouldFixU16 v && pool.length > 0 : Bool) = true
    · right
      have hne : pool ≠ [] := by
        have h2 := ((Bool.and_eq_true _ _).mp hc).2
        intro hnil
        rw [hnil] at h2
        simp at h2
      have h := avgU16_no_wrap pool hne hx
      rw [fixU16, if_pos hc]
      exact h.1 ▸ h.2
    · left
      rw [fixU16, if_neg hc]
  · intro pool v hx
    by_cases hc : (shouldFixU8 v && pool.length > 0 : Bool) = true
    · right
      have hne : pool ≠ [] := by
        have h2 := ((Bool.and_eq_true _ _).mp hc).2
        intro hnil
        rw [hnil] at h2
        simp at h2
      have h := avgU8_no_wrap pool hne hx
      rw [fixU8, if_pos hc]
      exact h.1 ▸ h.2
    · left
      rw [fixU8, if_neg hc]

/-- Witness for C10 at a concrete pool of genuine samples. -/
theorem C10_narrowing_never_wraps_witness :
    (avgU16 [200, 100] = goSumU64 [200, 100] / ([200, 100] : List Nat).length ∧
      avgU16 [200, 100] < uint16Invalid) ∧
    (fixU16 [200, 100] uint16Invalid = uint16Invalid ∨
      fixU16 [200, 100] uint16Invalid < uint16Invalid) :=
  ⟨C10_narrowing_never_wraps.1 [200, 100] (by decide) (by decide),
    C10_narrowing_never_wraps.2.2.2.2.2.1 [200, 100] uint16Invalid (by decide)⟩

/-- Counterexample to C1 as stated: for a token minted at T = 1000 from
`expires_in = 3600`, the stored expiry is 4600, yet `Expired` at the
boundary time T+3600 = 4600 returns `false` — the claim says it should
be `true` "at or after" T+3600. -/
theorem C1_expiry_boundary_counterexample :
    (exchangeOAuth2Stamp 1000 3600 7200).expiresAt = 4600 ∧
    (exchangeOAuth2Stamp 1000 3600 7200).Expired 4600 = false := by
  constructor
  · rfl
  · rfl

/-- C1 (amended): the stored absolute expiry is T+3600, and `Expired`
is `false` at every time at or before T+3600 and `true` at every time
strictly after T+3600 (the check is a strict `<` on the stored
expiry). -/
theorem C1_expiry_amended (T t refreshIn : Int) :
    (exchangeOAuth2Stamp T 3600 refreshIn).expiresAt = T + 3600 ∧
    (t ≤ T + 3600 → (exchangeOAuth2Stamp T 3600 refreshIn).Expired t = false) ∧
    (T + 3600 < t → (exchangeOAuth2Stamp T 3600 refreshIn).Expired t = true) := by
  refine ⟨rfl, ?_, ?_⟩
  · intro h
    simp only [exchangeOAuth2Stamp, OAuth2Token.Expired, decide_eq_false_iff_not]
    omega
  · intro h
    simp only [exchangeOAuth2Stamp, OAuth2Token.Expired, decide_eq_true_eq]
    omega

/-- Witness for the amended C1 at T = 1000, t = 4601. -/
theorem C1_expiry_amended_witness :
    (exchangeOAuth2Stamp 1000 3600 7200).expiresAt = 1000 + 3600 ∧
    ((4601 : Int) ≤ 1000 + 3600 →
      (exchangeOAuth2Stamp 1000 3600 7200).Expired 4601 = false) ∧
    ((1000 : Int) + 3600 < 4601 →
      (exchangeOAuth2Stamp 1000 3600 7200).Expired 4601 = true) :=
  C1_expiry_amended 1000 4601 7200

/-- C7: an upload whose first attempt returns HTTP 401 performs exactly
one refresh followed by exactly one retry; the retry's outcome —
including a second 401 — is surfaced as the result with no further
refresh or retry; a first attempt with any other status triggers no
retry. -/
theorem C7_single_refresh_retry_on_401 (env : UploadEnv)
    (hp : env.oauth2Present = true)
    (hpre : env.expired = true → env.refreshOk 0 = true) :
    (∀ body : UploadBody, env.attempt 0 = some (401, body) →
      (env.refreshOk (if env.expired then 1 else 0) = true →
        (uploadFIT env).1 =
          (if env.expired then [UploadEv.refresh] else []) ++
            [.attempt, .refresh, .attempt] ∧
        ∀ s2 b2, env.attempt 1 = some (s2, b2) →
          (uploadFIT env).2 = .result (parseUploadResult s2 b2)) ∧
      (env.refreshOk (if env.expired then 1 else 0) = false →
        uploadFIT env =
          ((if env.expired then [UploadEv.refresh] else []) ++
            [.attempt, .refresh], .refreshFailed)) ∧
      (∀ b2, env.attempt 1 = some (401, b2) →
        env.refreshOk (if env.expired then 1 else 0) = true →
        (uploadFIT env).2 = .result (.httpError 401))) ∧
    (∀ (s : Nat) (body : UploadBody), env.attempt 0 = some (s, body) →
      s ≠ 401 →
      uploadFIT env =
        ((if env.expired then [UploadEv.refresh] else []) ++ [.attempt],
          .result (parseUploadResult s body))) := by
  constructor
  · intro body h401
    refine ⟨?_, ?_, ?_⟩
    · intro hre
      cases he : env.expired
      · rw [he] at hre
        simp only [Bool.false_eq_true, if_false] at hre
        cases h1 : env.attempt 1 with
        | none =>
          constructor
          · simp [uploadFIT, hp, he, h401, hre, h1]
          · intro s2 b2 hs2
            cases hs2
        | some p =>
          obtain ⟨s2, b2⟩ := p
          constructor
          · simp [uploadFIT, hp, he, h401, hre, h1]
          · intro s2a b2a hs2
            cases hs2
            simp [uploadFIT, hp, he, h401, hre, h1]
      · rw [he] at hre
        simp only [if_true] at hre
        have h0 := hpre he
        cases h1 : env.attempt 1 with
        | none =>
          constructor
          · simp [uploadFIT, hp, he, h401, hre, h0, h1]
          · intro s2 b2 hs2
            cases hs2
        | some p =>
          obtain ⟨s2, b2⟩ := p
          constructor
          · simp [uploadFIT, hp, he, h401, hre, h0, h1]
          · intro s2a b2a hs2
            cases hs2
            simp [uploadFIT, hp, he, h401, hre, h0, h1]
    · intro hre
      cases he : env.expired
      · rw [he] at hre
        simp only [Bool.false_eq_true, if_false] at hre
        simp [uploadFIT, hp, he, h401, hre]
      · rw [he] at hre
        simp only [if_true] at hre
        have h0 := hpre he
        simp [uploadFIT, hp, he, h401, hre, h0]
    · intro b2 h1 hre
      cases he : env.expired
      · rw [he] at hre
        simp only [Bool.false_eq_true, if_false] at hre
        simp [uploadFIT, hp, he, h401, hre, h1, parseUploadResult]
      · rw [he] at hre
        simp only [if_true] at hre
        have h0 := hpre he
        simp [uploadFIT, hp, he, h401, hre, h0, h1, parseUploadResult]
  · intro s body h0 hs
    cases he : env.expired
    · simp [uploadFIT, hp, he, h0, hs]
    · have h0' := hpre he
      simp [uploadFIT, hp, he, h0, h0', hs]

/-- Witness for C7: unexpired session, first attempt 401, retry
succeeds with 200 and an empty failures list. -/
theorem C7_single_refresh_retry_on_401_witness :
    (uploadFIT env401).1 = [.attempt, .refresh, .attempt] ∧
    (uploadFIT env401).2 = .result (parseUploadResult 200 ⟨some []⟩) := by
  have h := C7_single_refresh_retry_on_401 env401 rfl (by intro h; cases h)
  have h401 : env401.attempt 0 = some (401, ⟨some []⟩) := rfl
  have h1 : env401.attempt 1 = some (200, ⟨some []⟩) := rfl
  have hre : env401.refreshOk (if env401.expired then 1 else 0) = true := rfl
  exact ⟨((h.1 ⟨some []⟩ h401).1 hre).1,
    ((h.1 ⟨some []⟩ h401).1 hre).2 200 ⟨some []⟩ h1⟩

/-- C8: an upload response with HTTP 409 is classified as the
distinguished duplicate outcome, and a 409 on the first attempt
triggers no refresh and no retry. -/
theorem C8_duplicate_on_409 (env : UploadEnv)
    (hp : env.oauth2Present = true)
    (hpre : env.expired = true → env.refreshOk 0 = true) :
    (∀ body : UploadBody, parseUploadResult 409 body = .duplicate) ∧
    (∀ body : UploadBody, env.attempt 0 = some (409, body) →
      uploadFIT env =
        ((if env.expired then [UploadEv.refresh] else []) ++ [.attempt],
          .result .duplicate)) := by
  constructor
  · intro body
    rfl
  · intro body h0
    cases he : env.expired
    · simp [uploadFIT, hp, he, h0, parseUploadResult]
    · have h0' := hpre he
      simp [uploadFIT, hp, he, h0, h0', parseUploadResult]

/-- Witness for C8: unexpired session, first attempt 409. -/
theorem C8_duplicate_on_409_witness :
    parseUploadResult 409 ⟨none⟩ = .duplicate ∧
    uploadFIT env409 = ([.attempt], .result .duplicate) := by
  have h := C8_duplicate_on_409 env409 rfl (by intro h; cases h)
  exact ⟨h.1 ⟨none⟩, h.2 ⟨none⟩ rfl⟩

/-! ## Version-comparison lemmas for file selection -/

theorem cmpVersionParts_refl (a : List Nat) : cmpVersionParts a a = 0 := by
  induction a with
  | nil => rfl
  | cons x as ih => simp [cmpVersionParts, ih]

theorem cmpVersionParts_antisymm (a b : List Nat) :
    cmpVersionParts a b = -cmpVersionParts b a := by
  induction a generalizing b with
  | nil =>
    cases b with
    | nil => rfl
    | cons y bs =>
      simp [cmpVersionParts]
  | cons x as ih =>
    cases b with
    | nil => simp [cmpVersionParts]
    | cons y bs =>
      by_cases hxy : x = y
      · simp [cmpVersionParts, hxy, ih bs]
      · have hyx : ¬ y = x := fun h => hxy h.symm
        simp only [cmpVersionParts, ne_eq, hxy, hyx, not_false_eq_true, if_true]
        omega

theorem cmpVersionParts_le_iff (a b : List Nat) :
    cmpVersionParts a b ≤ 0 ↔ versionLE a b = true := by
  induction a generalizing b with
  | nil =>
    cases b with
    | nil => simp [cmpVersionParts, versionLE]
    | cons y bs =>
      simp [cmpVersionParts, versionLE]
      omega
  | cons x as ih =>
    cases b with
    | nil =>
      simp [cmpVersionParts, versionLE]
    | cons y bs =>
      by_cases hxy : x = y
      · subst hxy
        simp [cmpVersionParts, versionLE, ih bs]
      · simp only [cmpVersionParts, ne_eq, hxy, not_false_eq_true, if_true,
          versionLE, Bool.or_eq_true, decide_eq_true_eq, Bool.and_eq_true]
        constructor
        · intro h
          left
          omega
        · intro h
          rcases h with h | ⟨h, _⟩
          · omega
          · exact h.elim

theorem versionLE_refl (a : List Nat) : versionLE a a = true :=
  (cmpVersionParts_le_iff a a).mp (by rw [cmpVersionParts_refl])

theorem versionLE_total (a b : List Nat) :
    versionLE a b = true ∨ versionLE b a = true := by
  rcases le_or_lt (cmpVersionParts a b) 0 with h | h
  · exact Or.inl ((cmpVersionParts_le_iff a b).mp h)
  · refine Or.inr ((cmpVersionParts_le_iff b a).mp ?_)
    rw [cmpVersionParts_antisymm b a]
    omega

theorem versionLE_trans (a b c : List Nat) (hab : versionLE a b = true)
    (hbc : versionLE b c = true) : versionLE a c = true := by
  induction a generalizing b c with
  | nil => rfl
  | cons x as ih =>
    cases b with
    | nil => simp [versionLE] at hab
    | cons y bs =>
      cases c with
      | nil => simp [versionLE] at hbc
      | cons z cs =>
        simp only [versionLE, Bool.or_eq_true, decide_eq_true_eq,
          Bool.and_eq_true] at hab hbc ⊢
        rcases hab with hab | ⟨hab, hab2⟩
        · rcases hbc with hbc | ⟨hbc, _⟩
          · left; omega
          · left; omega
        · rcases hbc with hbc | ⟨hbc, hbc2⟩
          · left; omega
          · right
            exact ⟨by omega, ih bs cs hab2 hbc2⟩

/-! ## Insertion-sort lemmas for `findMostRecentFitFile` -/

theorem mem_insertDescByVersion (x : String) (l : List String) (y : String) :
    y ∈ insertDescByVersion x l ↔ y = x ∨ y ∈ l := by
  induction l with
  | nil => simp [insertDescByVersion]
  | cons z zs ih =>
    by_cases hc : 0 < cmpVersionParts (digitRuns x) (digitRuns z)
    · simp [insertDescByVersion, hc]
    · simp only [insertDescByVersion, hc, if_false, List.mem_cons, ih]
      tauto

theorem mem_sortDescByVersion (l : List String) (y : String) :
    y ∈ sortDescByVersion l ↔ y ∈ l := by
  induction l with
  | nil => simp [sortDescByVersion]
  | cons a t ih =>
    show y ∈ insertDescByVersion a (sortDescByVersion t) ↔ _
    rw [mem_insertDescByVersion]
    simp [ih]

theorem sortDescByVersion_head_max (l : List String) (m : String)
    (rest : List String) (heq : sortDescByVersion l = m :: rest) :
    ∀ x ∈ l, versionLE (digitRuns x) (digitRuns m) = true := by
  induction l generalizing m rest with
  | nil => cases heq
  | cons a t ih =>
    have heq' : insertDescByVersion a (sortDescByVersion t) = m :: rest := heq
    cases hs : sortDescByVersion t with
    | nil =>
      rw [hs] at heq'
      have hma : m = a := by
        have h2 : ([a] : List String) = m :: rest := heq'
        cases h2
        rfl
      intro x hx
      rw [hma]
      rcases List.mem_cons.mp hx with rfl | hx
      · exact versionLE_refl _
      · exfalso
        have := (mem_sortDescByVersion t x).mpr hx
        rw [hs] at this
        cases this
    | cons m' r' =>
      have hmax' := ih m' r' hs
      rw [hs] at heq'
      by_cases hc : 0 < cmpVersionParts (digitRuns a) (digitRuns m')
      · rw [insertDescByVersion, if_pos hc] at heq'
        have hma : m = a := by cases heq'; rfl
        have hm'a : versionLE (digitRuns m') (digitRuns a) = true := by
          apply (cmpVersionParts_le_iff _ _).mp
          rw [cmpVersionParts_antisymm]
          omega
        intro x hx
        rw [hma]
        rcases List.mem_cons.mp hx with rfl | hx
        · exact versionLE_refl _
        · exact versionLE_trans _ _ _ (hmax' x hx) hm'a
      · rw [insertDescByVersion, if_neg hc] at heq'
        have hmm : m = m' := by cases heq'; rfl
        have ham : versionLE (digitRuns a) (digitRuns m') = true := by
          apply (cmpVersionParts_le_iff _ _).mp
          omega
        intro x hx
        rw [hmm]
        rcases List.mem_cons.mp hx with rfl | hx
        · exact ham
        · exact hmax' x hx

/-- When every run of a string fits Go's `int64`, the saturating parse
agrees with the spec-side unbounded parse. -/
theorem digitRunsAcc_eq_spec (cs : List Char) (o : Option Nat)
    (hb : ∀ n ∈ specDigitRunsAcc cs o, n ≤ 2 ^ 63 - 1) :
    digitRunsAcc cs o = specDigitRunsAcc cs o := by
  induction cs generalizing o with
  | nil =>
    cases o with
    | none => rfl
    | some n =>
      have hn : n ≤ 2 ^ 63 - 1 := hb n (by simp [specDigitRunsAcc])
      show [goAtoiSat n] = [n]
      rw [goAtoiSat, Nat.min_eq_left hn]
  | cons c cs ih =>
    cases o with
    | none =>
      by_cases hd : isDigitCh c = true
      · rw [digitRunsAcc, specDigitRunsAcc, if_pos hd, if_pos hd]
        apply ih
        intro k hk
        apply hb
        rw [specDigitRunsAcc, if_pos hd]
        exact hk
      · rw [digitRunsAcc, specDigitRunsAcc, if_neg hd, if_neg hd]
        apply ih
        intro k hk
        apply hb
        rw [specDigitRunsAcc, if_neg hd]
        exact hk
    | some n =>
      by_cases hd : isDigitCh c = true
      · rw [digitRunsAcc, specDigitRunsAcc, if_pos hd, if_pos hd]
        apply ih
        intro k hk
        apply hb
        rw [specDigitRunsAcc, if_pos hd]
        exact hk
      · have hn : n ≤ 2 ^ 63 - 1 := by
          apply hb
          rw [specDigitRunsAcc, if_neg hd]
          exact List.mem_cons_self n _
        have hrec : digitRunsAcc cs none = specDigitRunsAcc cs none := by
          apply ih
          intro k hk
          apply hb
          rw [specDigitRunsAcc, if_neg hd]
          exact List.mem_cons_of_mem n hk
        rw [digitRunsAcc, specDigitRunsAcc, if_neg hd, if_neg hd,
          goAtoiSat, Nat.min_eq_left hn, hrec]

theorem digitRuns_eq_spec (s : String)
    (hb : ∀ n ∈ specDigitRuns s, n ≤ 2 ^ 63 - 1) :
    digitRuns s = specDigitRuns s :=
  digitRunsAcc_eq_spec s.data none hb

/-- Counterexample to C6 as stated: with two candidates whose single
version components are 2^63 and 2^63 - 1, `Atoi`'s ignored saturation
makes the program compare them equal, and selection returns the
9223372036854775807 file although, compared as integers, the
9223372036854775808 file is strictly greater — the selected file's
sequence is not the greatest. -/
theorem C6_version_selection_counterexample :
    findMostRecentFitFile
        ["MyNewActivity-9223372036854775808.fit",
          "MyNewActivity-9223372036854775807.fit"] =
      some "MyNewActivity-9223372036854775807.fit" ∧
    versionLE
        (specDigitRuns "MyNewActivity-9223372036854775808.fit")
        (specDigitRuns "MyNewActivity-9223372036854775807.fit") = false := by
  constructor
  · decide
  · decide

/-- C6 (amended): for every non-empty candidate list in which every
numeric run fits Go's `int64` (is at most 2^63-1, i.e. at most 18
digits, or 19 digits below the saturation point),
`findMostRecentFitFile` returns a candidate whose numeric version
sequence is greatest under component-wise left-to-right integer
comparison. -/
theorem C6_version_selection_amended (candidates : List String)
    (hne : candidates ≠ [])
    (hbound : ∀ x ∈ candidates, ∀ n ∈ specDigitRuns x, n ≤ 2 ^ 63 - 1) :
    ∃ m, findMostRecentFitFile candidates = some m ∧ m ∈ candidates ∧
      ∀ x ∈ candidates, versionLE (specDigitRuns x) (specDigitRuns m) = true := by
  cases hs : sortDescByVersion candidates with
  | nil =>
    exfalso
    obtain ⟨y, hy⟩ := List.exists_mem_of_ne_nil candidates hne
    have := (mem_sortDescByVersion candidates y).mpr hy
    rw [hs] at this
    cases this
  | cons m rest =>
    have hmem : m ∈ candidates := by
      have hm : m ∈ sortDescByVersion candidates := by
        rw [hs]
        exact List.mem_cons_self m rest
      exact (mem_sortDescByVersion candidates m).mp hm
    refine ⟨m, ?_, hmem, ?_⟩
    · rw [findMostRecentFitFile, hs]
    · intro x hx
      have h := sortDescByVersion_head_max candidates m rest hs x hx
      rwa [digitRuns_eq_spec x (hbound x hx),
        digitRuns_eq_spec m (hbound m hmem)] at h

/-- Witness for the amended C6: the spec's own example — among versions
3.7.0, 3.8.5, 3.8.1 (all components far below 2^63), the 3.8.5 file
is selected. -/
theorem C6_version_selection_amended_witness :
    (["MyNewActivity-3.7.0.fit", "MyNewActivity-3.8.5.fit",
        "MyNewActivity-3.8.1.fit"] : List String) ≠ [] ∧
    findMostRecentFitFile
        ["MyNewActivity-3.7.0.fit", "MyNewActivity-3.8.5.fit",
          "MyNewActivity-3.8.1.fit"] = some "MyNewActivity-3.8.5.fit" ∧
    (∃ m, findMostRecentFitFile
        ["MyNewActivity-3.7.0.fit", "MyNewActivity-3.8.5.fit",
          "MyNewActivity-3.8.1.fit"] = some m ∧
      m ∈ ["MyNewActivity-3.7.0.fit", "MyNewActivity-3.8.5.fit",
        "MyNewActivity-3.8.1.fit"] ∧
      ∀ x ∈ (["MyNewActivity-3.7.0.fit", "MyNewActivity-3.8.5.fit",
          "MyNewActivity-3.8.1.fit"] : List String),
        versionLE (specDigitRuns x) (specDigitRuns m) = true) :=
  ⟨by decide, by decide,
    C6_version_selection_amended
      ["MyNewActivity-3.7.0.fit", "MyNewActivity-3.8.5.fit",
        "MyNewActivity-3.8.1.fit"] (by decide) (by decide)⟩

end M2G
